import Mathlib

/-
  Verification of the APDU dispatch state machine (src/dispatch/src/dispatch.rs,
  crate apdu-dispatch).

  The dispatcher is embedded shallowly:
  * heapless byte vectors become `List Nat` (each element a byte value);
  * the `iso7816` command view becomes the `Command` structure below, carrying
    exactly the pieces dispatch.rs reads from it: the CLA chaining bit
    (`class().chain().not_the_last()`), the instruction byte, p1, p2, the data
    field and the value of `expected()`;
  * the transport responders become an emission list `List (Interface × List Nat)`:
    every `respond` call of the source appends the responded message, tagged by
    the interface it goes out on;
  * the constant MAX_INTERCHANGE_DATA is `min(interchanges::SIZE, ResponseSize) - 2`
    with feature-dependent sizes defined outside src/, so every function that
    reads it is parameterized by a natural number `mid`;
  * Rust panics (the `panic!` arms, `unwrap` on `find_app`, `unwrap` in `respond`)
    become `Option.none` results;
  * application calls (`select`, `call`, `deselect`) are recorded as events, and
    the app behaviour is a parameter (`AppSpec`), mirroring the `App` trait.
-/

namespace ApduDispatch

/-- The two transports, `iso7816::Interface`. -/
inductive Interface where
  | contact
  | contactless
deriving DecidableEq

/-- Embedded `iso7816` command view: the projection of a parsed APDU that
dispatch.rs actually consumes. `notLast` is `class().chain().not_the_last()`,
`expected` is `Command::expected()` (the decoded Le). The data field is the
Lc-delimited command data. -/
structure Command where
  notLast : Bool
  ins : Nat
  p1 : Nat
  p2 : Nat
  data : List Nat
  expected : Nat
deriving DecidableEq

/-- `RequestType` from dispatch.rs: the classification a poll step dispatches on. -/
inductive RequestType where
  | select (aid : List Nat) (i : Interface)
  | getResponse
  | newCommand (i : Interface)
  | badCommand (status : Nat)
  | none
deriving DecidableEq

/-- `RawApduBuffer` from dispatch.rs. -/
inductive RawApduBuffer where
  | none
  | request (c : Command)
  | response (d : List Nat)
deriving DecidableEq

/-- `ApduBuffer::request` (dispatch.rs lines 57-71): append the data of the new
command to an existing Request; otherwise (Empty buffer, or a pending Response
that is aborted) seed a fresh Request from the command. Appending keeps the
header of the first command, per spec section 4.2 for the external
`extend_from_command_view`. -/
def bufferRequest : RawApduBuffer → Command → RawApduBuffer
  | RawApduBuffer.request buffered, c =>
      RawApduBuffer.request { buffered with data := buffered.data ++ c.data }
  | _, c => RawApduBuffer.request c

/-- The dispatcher state (struct `ApduDispatch`), minus the two owned transport
responders, which are modelled by the emission lists the step functions return. -/
structure DispatchState where
  currentAid : Option (List Nat)
  interface : Option Interface
  buffer : RawApduBuffer
  responseLenExpected : Nat
  wasRequestChained : Bool
deriving DecidableEq

/-- Big-endian bytes of a 16-bit status word, as produced by `Status::into()`
followed by `to_be_bytes`. -/
def swBytes (sw : Nat) : List Nat :=
  [sw / 256 % 256, sw % 256]

/-- Modelled from the spec: `Aid::try_new` of the external iso7816 crate, used
by the classifier; per spec section 3, an AID is a byte identifier of 5 to 16
bytes, and section 4.1 maps an invalid one to BadCommand 0x6A80. -/
def aidTryNew (d : List Nat) : Option (List Nat) :=
  if 5 ≤ d.length ∧ d.length ≤ 16 then some d else Option.none

/-- `ApduDispatch::apdu_type` (dispatch.rs lines 91-106). Instruction byte
values 0xA4 (SELECT) and 0xC0 (GET RESPONSE) are fixed by spec section 4.1. -/
def apduType (apdu : Command) (interface : Interface) : RequestType :=
  if apdu.ins = 0xA4 ∧ apdu.p1 &&& 0x04 ≠ 0 then
    match aidTryNew apdu.data with
    | some aid => RequestType.select aid interface
    | Option.none => RequestType.badCommand 0x6A80
  else if apdu.ins = 0xC0 then RequestType.getResponse
  else RequestType.newCommand interface

/-- `ApduDispatch::buffer_chained_apdu_if_needed` (dispatch.rs lines 152-206).
Returns the classification, the updated state, and the messages responded on
the transports (the 0x9000 acknowledgement of an intermediate chained block). -/
def bufferChainedApduIfNeeded (s : DispatchState) (command : Command)
    (interface : Interface) :
    RequestType × DispatchState × List (Interface × List Nat) :=
  if !command.notLast then
    match s.buffer with
    | RawApduBuffer.request _ =>
        (RequestType.newCommand interface,
         { s with buffer := bufferRequest s.buffer command, wasRequestChained := true },
         [])
    | _ =>
        let s1 := if s.buffer = RawApduBuffer.none
                  then { s with wasRequestChained := false } else s
        let t := apduType command interface
        match t with
        | RequestType.getResponse => (t, s1, [])
        | _ => (t, { s1 with buffer := bufferRequest s1.buffer command }, [])
  else
    let s1 := if command.data ≠ [] then { s with buffer := bufferRequest s.buffer command } else s
    (RequestType.none, s1, [(interface, swBytes 0x9000)])

/-- `ApduDispatch::check_for_request` (dispatch.rs lines 237-286), after the
busy check and the take from a transport: the taken message and its arriving
interface are parameters, and `parse` stands for `Self::parse_apdu`
(`iso7816::Command::try_from`, not under src/), whose every failure the source
collapses to status 0x6F00. -/
def checkForRequest (parse : List Nat → Option Command) (s : DispatchState)
    (message : List Nat) (interface : Interface) :
    RequestType × DispatchState × List (Interface × List Nat) :=
  let pinned : DispatchState × Except Nat Command :=
    match s.interface with
    | some i =>
        if i ≠ interface then (s, Except.error 0x6400)
        else
          (s, match parse message with
              | some c => Except.ok c
              | Option.none => Except.error 0x6F00)
    | Option.none =>
        ({ s with interface := some interface },
         match parse message with
         | some c => Except.ok c
         | Option.none => Except.error 0x6F00)
  match pinned.2 with
  | Except.ok command =>
      bufferChainedApduIfNeeded
        { pinned.1 with responseLenExpected := command.expected } command interface
  | Except.error sw => (RequestType.none, pinned.1, [(interface, swBytes sw)])

/-- `ApduDispatch::handle_reply` (dispatch.rs lines 295-349), parameterized by
`mid` = MAX_INTERCHANGE_DATA. Returns the updated state and the responded
message (the source sends it out on the pinned interface via `respond`). -/
def handleReply (mid : Nat) (s : DispatchState) : DispatchState × List Nat :=
  match s.buffer with
  | RawApduBuffer.request _ => ({ s with buffer := RawApduBuffer.none }, swBytes 0x6F00)
  | RawApduBuffer.none => ({ s with buffer := RawApduBuffer.none }, swBytes 0x6F00)
  | RawApduBuffer.response res =>
      let maxResponseLen := min s.responseLenExpected mid
      if s.wasRequestChained ∨ maxResponseLen < res.length then
        let boundary := min maxResponseLen res.length
        let toSend := res.take boundary
        let remaining := res.drop boundary
        let returnCode : Nat :=
          if 255 < remaining.length then 0x6100
          else if remaining.length ≠ 0 then 0x6100 + remaining.length
          else 0x9000
        let message := toSend ++ swBytes returnCode
        if returnCode = 0x9000 then
          ({ s with buffer := RawApduBuffer.none }, message)
        else
          ({ s with buffer := RawApduBuffer.response remaining }, message)
      else
        ({ s with buffer := RawApduBuffer.none }, res ++ [0x90, 0x00])

/-- A dispatcher state as `handle_reply` reads it: only the buffer, the
expected length and the chaining flag matter to it. -/
def mkReplyState (le : Nat) (chained : Bool) (buf : RawApduBuffer) : DispatchState :=
  { currentAid := Option.none
    interface := Option.none
    buffer := buf
    responseLenExpected := le
    wasRequestChained := chained }

/-- Following the words of spec section 4.7 (second, spec-side definition, to be
compared with `handleReply`): with `max_chunk = min(expected_len, MAX_INTERCHANGE_DATA)`,
the chunked regime is taken when the request was chained or the response exceeds
`max_chunk`; it emits `bytes[..boundary]` with SW 0x9000 when the boundary
drains the buffer, 0x6100 + remaining when 0 < remaining ≤ 255, and 0x6100 when
more than 255 bytes remain; otherwise the unchunked regime emits the whole
response followed by 0x9000. -/
def handleReplySpecResponse (mid le : Nat) (chained : Bool) (bytes : List Nat) :
    RawApduBuffer × List Nat :=
  let maxChunk := min le mid
  if chained ∨ maxChunk < bytes.length then
    let boundary := min maxChunk bytes.length
    let remaining := bytes.length - boundary
    let sw := if boundary = bytes.length then 0x9000
              else if remaining ≤ 255 then 0x6100 + remaining
              else 0x6100
    ((if sw = 0x9000 then RawApduBuffer.none
      else RawApduBuffer.response (bytes.drop boundary)),
     bytes.take boundary ++ swBytes sw)
  else
    (RawApduBuffer.none, bytes ++ [0x90, 0x00])

/-- C8: a handle_reply invocation entered with a Request or Empty buffer (a
spurious GET RESPONSE) responds exactly the status word 0x6F00 and leaves the
buffer Empty. -/
theorem claim_C8_spurious_get_response (mid : Nat) (s : DispatchState)
    (h : s.buffer = RawApduBuffer.none ∨ ∃ c, s.buffer = RawApduBuffer.request c) :
    handleReply mid s = ({ s with buffer := RawApduBuffer.none }, [0x6F, 0x00]) := by
  rcases h with h | ⟨c, h⟩ <;> simp [handleReply, h, swBytes]

theorem claim_C8_witness :
    (mkReplyState 0 false RawApduBuffer.none).buffer = RawApduBuffer.none ∧
      handleReply 7 (mkReplyState 0 false RawApduBuffer.none) =
        ({ mkReplyState 0 false RawApduBuffer.none with buffer := RawApduBuffer.none },
         [0x6F, 0x00]) :=
  ⟨rfl, claim_C8_spurious_get_response 7 (mkReplyState 0 false RawApduBuffer.none)
          (Or.inl rfl)⟩

/-- C3: on a Response buffer, handle_reply behaves exactly as spec section 4.7
states it, in both the chunked and the unchunked regime (refinement of the
source function against the spec-side definition `handleReplySpecResponse`). -/
theorem claim_C3_reply_regimes (mid le : Nat) (chained : Bool) (bytes : List Nat) :
    handleReply mid (mkReplyState le chained (RawApduBuffer.response bytes)) =
      (mkReplyState le chained (handleReplySpecResponse mid le chained bytes).1,
       (handleReplySpecResponse mid le chained bytes).2) := by
  simp only [handleReply, handleReplySpecResponse, mkReplyState, List.length_drop]
  by_cases hch : (chained = true) ∨ min le mid < bytes.length
  · rw [if_pos hch, if_pos hch]
    have hkle : min (min le mid) bytes.length ≤ bytes.length := Nat.min_le_right _ _
    generalize hk : min (min le mid) bytes.length = k at hkle ⊢
    split_ifs <;> first | rfl | (exfalso; omega)
  · rw [if_neg hch, if_neg hch]

theorem claim_C3_witness :
    handleReply 4 (mkReplyState 3 false (RawApduBuffer.response [1, 2, 3, 4, 5])) =
      (mkReplyState 3 false (handleReplySpecResponse 4 3 false [1, 2, 3, 4, 5]).1,
       (handleReplySpecResponse 4 3 false [1, 2, 3, 4, 5]).2) :=
  claim_C3_reply_regimes 4 3 false [1, 2, 3, 4, 5]

/-- `ApduDispatch::reply_error` (dispatch.rs lines 288-292): respond the status
word and clear the buffer. -/
def replyError (s : DispatchState) (status : Nat) : DispatchState × List Nat :=
  ({ s with buffer := RawApduBuffer.none }, swBytes status)

/-- `ApduDispatch::handle_app_response` (dispatch.rs lines 351-366): on Ok the
written response data goes into the buffer and handle_reply runs; on Err the
status is replied immediately. The app result is an `Except` pairing the
`Result` with the response buffer the app filled. -/
def handleAppResponse (mid : Nat) (s : DispatchState)
    (result : Except Nat (List Nat)) : DispatchState × List Nat :=
  match result with
  | Except.ok data => handleReply mid { s with buffer := RawApduBuffer.response data }
  | Except.error status => replyError s status

/-- The `App` trait surface as dispatch.rs consumes it: an AID matcher
(`aid().matches`), and `select` / `call` behaviours combining the returned
`Result` with the response data the app writes. `deselect` is infallible and
state-scrubbing, so it appears only as a recorded event. -/
structure AppSpec where
  aidMatches : List Nat → Bool
  select : Interface → Command → Except Nat (List Nat)
  call : Interface → Command → Except Nat (List Nat)

/-- Record of an application method invocation, in invocation order. -/
inductive AppEvent where
  | selectCall (appIdx : Nat) (i : Interface) (apdu : Command)
  | callCall (appIdx : Nat) (i : Interface) (apdu : Command)
  | deselectCall (appIdx : Nat)
deriving DecidableEq

/-- `ApduDispatch::find_app` (dispatch.rs lines 124-140): first app in registry
order whose matcher accepts the AID; apps are identified by registry index. -/
def findApp (aid : Option (List Nat)) (apps : List AppSpec) : Option (Nat × AppSpec) :=
  aid.bind fun a => apps.enum.find? fun p => p.2.aidMatches a

/-- `ApduDispatch::respond` (dispatch.rs lines 476-483): send the message on
`self.interface.unwrap()`; `Option.none` models the panic when no interface is
pinned. -/
def respond (s : DispatchState) (message : List Nat) :
    Option (List (Interface × List Nat)) :=
  s.interface.map fun i => [(i, message)]

/-- `ApduDispatch::handle_app_select` (dispatch.rs lines 368-412). Returns the
new state, the emissions, and the app events; `Option.none` models the panics
(buffer not in the Request state, or the `unwrap` on the deselect lookup).
Mirroring the source: `select` is invoked on the located app first, then
`current_aid` is replaced with the new AID, and only then is the deselect
target looked up by `self.current_aid`. -/
def handleAppSelect (mid : Nat) (apps : List AppSpec) (s : DispatchState)
    (aid : List Nat) (interface : Interface) :
    Option (DispatchState × List (Interface × List Nat) × List AppEvent) :=
  match findApp (some aid) apps with
  | some (i, app) =>
      match s.buffer with
      | RawApduBuffer.request apdu =>
          let result := app.select interface apdu
          let s1 := { s with currentAid := some aid }
          let desel : Option (List AppEvent) :=
            match s.currentAid with
            | some old =>
                if old ≠ aid then
                  (findApp s1.currentAid apps).map fun p => [AppEvent.deselectCall p.1]
                else some []
            | Option.none => some []
          match desel with
          | some ev =>
              let r := handleAppResponse mid s1 result
              (respond r.1 r.2).map fun out =>
                (r.1, out, AppEvent.selectCall i interface apdu :: ev)
          | Option.none => Option.none
      | _ => Option.none
  | Option.none =>
      let r := replyError s 0x6A82
      (respond r.1 r.2).map fun out => (r.1, out, [])

/-- `ApduDispatch::handle_app_command` (dispatch.rs lines 414-432): look up the
bound app by `current_aid` and invoke `call` on the buffered Request;
`Option.none` models the panic on a non-Request buffer. -/
def handleAppCommand (mid : Nat) (apps : List AppSpec) (s : DispatchState)
    (interface : Interface) :
    Option (DispatchState × List (Interface × List Nat) × List AppEvent) :=
  match findApp s.currentAid apps with
  | some (i, app) =>
      match s.buffer with
      | RawApduBuffer.request apdu =>
          let r := handleAppResponse mid s (app.call interface apdu)
          (respond r.1 r.2).map fun out =>
            (r.1, out, [AppEvent.callCall i interface apdu])
      | _ => Option.none
  | Option.none =>
      let r := replyError s 0x6A82
      (respond r.1 r.2).map fun out => (r.1, out, [])

/-- `ApduDispatch::poll` (dispatch.rs lines 434-474): one step. The transport
arbitration (busy check, contactless priority) is modelled by the `incoming`
parameter holding the request taken in this step, if any. -/
def poll (mid : Nat) (parse : List Nat → Option Command) (apps : List AppSpec)
    (s : DispatchState) (incoming : Option (List Nat × Interface)) :
    Option (DispatchState × List (Interface × List Nat) × List AppEvent) :=
  match incoming with
  | Option.none => some (s, [], [])
  | some (message, interface) =>
      let c := checkForRequest parse s message interface
      match c.1 with
      | RequestType.select aid i =>
          (handleAppSelect mid apps c.2.1 aid i).map fun r =>
            (r.1, c.2.2 ++ r.2.1, r.2.2)
      | RequestType.getResponse =>
          let r := handleReply mid c.2.1
          (respond r.1 r.2).map fun out => (r.1, c.2.2 ++ out, [])
      | RequestType.newCommand i =>
          (handleAppCommand mid apps c.2.1 i).map fun r =>
            (r.1, c.2.2 ++ r.2.1, r.2.2)
      | RequestType.badCommand st =>
          let r := replyError c.2.1 st
          (respond r.1 r.2).map fun out => (r.1, c.2.2 ++ out, [])
      | RequestType.none => some (c.2.1, c.2.2, [])

/-- C5: a request taken on interface J while the dispatcher is pinned to I ≠ J
is answered with exactly the two bytes 0x6400 on J, without parsing (the
statement holds for every parse function), the state is unchanged, and no app
event is produced. -/
theorem claim_C5_cross_interface_rejected (mid : Nat)
    (parse : List Nat → Option Command) (apps : List AppSpec) (s : DispatchState)
    (message : List Nat) (i j : Interface)
    (hp : s.interface = some i) (hne : j ≠ i) :
    poll mid parse apps s (some (message, j)) =
      some (s, [(j, [0x64, 0x00])], []) := by
  have hij : i ≠ j := Ne.symm hne
  simp [poll, checkForRequest, hp, hij, swBytes]

theorem claim_C5_witness :
    (mkReplyState 0 false RawApduBuffer.none).interface = Option.none ∧
      poll 7 (fun _ => Option.none) []
          { mkReplyState 0 false RawApduBuffer.none with
              interface := some Interface.contactless }
          (some ([1, 2, 3], Interface.contact)) =
        some ({ mkReplyState 0 false RawApduBuffer.none with
                  interface := some Interface.contactless },
              [(Interface.contact, [0x64, 0x00])], []) :=
  ⟨rfl,
   claim_C5_cross_interface_rejected 7 (fun _ => Option.none) []
     { mkReplyState 0 false RawApduBuffer.none with
         interface := some Interface.contactless }
     [1, 2, 3] Interface.contactless Interface.contact rfl (by decide)⟩

/-- C10: with no pinned interface, check_for_request pins the arriving
interface before parsing and leaves it pinned even when parsing fails (the
failure is answered with 0x6F00); a later well-formed command on the other
interface is then rejected with 0x6400. -/
theorem claim_C10_pin_survives_parse_failure (mid : Nat)
    (parse : List Nat → Option Command) (apps : List AppSpec) (s : DispatchState)
    (m1 m2 : List Nat) (i j : Interface) (c : Command)
    (h0 : s.interface = Option.none) (h1 : parse m1 = Option.none)
    (h2 : parse m2 = some c) (hne : j ≠ i) :
    poll mid parse apps s (some (m1, i)) =
      some ({ s with interface := some i }, [(i, [0x6F, 0x00])], []) ∧
    poll mid parse apps { s with interface := some i } (some (m2, j)) =
      some ({ s with interface := some i }, [(j, [0x64, 0x00])], []) := by
  have hij : i ≠ j := Ne.symm hne
  constructor
  · simp [poll, checkForRequest, h0, h1, swBytes]
  · simp [poll, checkForRequest, hij, swBytes]

theorem claim_C10_witness :
    poll 7 (fun m => if m = [] then Option.none else some (Command.mk false 0 0 0 [] 0))
        [] (mkReplyState 0 false RawApduBuffer.none) (some ([], Interface.contact)) =
      some ({ mkReplyState 0 false RawApduBuffer.none with
                interface := some Interface.contact },
            [(Interface.contact, [0x6F, 0x00])], []) ∧
    poll 7 (fun m => if m = [] then Option.none else some (Command.mk false 0 0 0 [] 0))
        [] { mkReplyState 0 false RawApduBuffer.none with
               interface := some Interface.contact }
        (some ([9], Interface.contactless)) =
      some ({ mkReplyState 0 false RawApduBuffer.none with
                interface := some Interface.contact },
            [(Interface.contactless, [0x64, 0x00])], []) :=
  claim_C10_pin_survives_parse_failure 7
    (fun m => if m = [] then Option.none else some (Command.mk false 0 0 0 [] 0))
    [] (mkReplyState 0 false RawApduBuffer.none) [] [9]
    Interface.contact Interface.contactless (Command.mk false 0 0 0 [] 0)
    rfl rfl rfl (by decide)

/-- C6: a parsed command whose CLA chaining bit says not-the-last-block is
acknowledged with 0x9000 on the originating interface, its data is appended to
the chaining buffer when non-empty (creating a Request from the command when
the buffer was Empty), the classification None is returned, and a poll step
that takes such a command invokes no application method. -/
theorem claim_C6_intermediate_block (s : DispatchState) (command : Command)
    (interface : Interface) (h : command.notLast = true) :
    bufferChainedApduIfNeeded s command interface =
      (RequestType.none,
       (if command.data ≠ [] then { s with buffer := bufferRequest s.buffer command }
        else s),
       [(interface, [0x90, 0x00])]) ∧
    (s.buffer = RawApduBuffer.none →
      bufferRequest s.buffer command = RawApduBuffer.request command) ∧
    (∀ (mid : Nat) (parse : List Nat → Option Command) (apps : List AppSpec)
        (message : List Nat),
      parse message = some command → s.interface = some interface →
      ∃ s2, poll mid parse apps s (some (message, interface)) =
        some (s2, [(interface, [0x90, 0x00])], [])) := by
  refine ⟨by simp [bufferChainedApduIfNeeded, h, swBytes], ?_, ?_⟩
  · intro hb
    rw [hb]
    rfl
  · intro mid parse apps message hparse hifc
    refine ⟨(checkForRequest parse s message interface).2.1, ?_⟩
    simp [poll, checkForRequest, hparse, hifc, bufferChainedApduIfNeeded, h, swBytes]

theorem claim_C6_witness :
    (Command.mk true 0 0 0 [7] 0).notLast = true ∧
      bufferChainedApduIfNeeded (mkReplyState 0 false RawApduBuffer.none)
          (Command.mk true 0 0 0 [7] 0) Interface.contact =
        (RequestType.none,
         (if (Command.mk true 0 0 0 [7] 0).data ≠ [] then
            { mkReplyState 0 false RawApduBuffer.none with
                buffer := bufferRequest (mkReplyState 0 false RawApduBuffer.none).buffer
                  (Command.mk true 0 0 0 [7] 0) }
          else mkReplyState 0 false RawApduBuffer.none),
         [(Interface.contact, [0x90, 0x00])]) :=
  ⟨rfl, (claim_C6_intermediate_block (mkReplyState 0 false RawApduBuffer.none)
      (Command.mk true 0 0 0 [7] 0) Interface.contact rfl).1⟩

theorem handleReply_preserves (mid : Nat) (s : DispatchState) :
    (handleReply mid s).1.currentAid = s.currentAid ∧
      (handleReply mid s).1.interface = s.interface := by
  unfold handleReply
  rcases hb : s.buffer with _ | c | res <;> dsimp only <;>
    first
      | exact ⟨rfl, rfl⟩
      | (split_ifs <;> exact ⟨rfl, rfl⟩)

theorem handleAppResponse_preserves (mid : Nat) (s : DispatchState)
    (result : Except Nat (List Nat)) :
    (handleAppResponse mid s result).1.currentAid = s.currentAid ∧
      (handleAppResponse mid s result).1.interface = s.interface := by
  rcases result with st | data
  · exact ⟨rfl, rfl⟩
  · exact handleReply_preserves mid { s with buffer := RawApduBuffer.response data }

/-- C7: a SELECT naming the already bound AID invokes the matched app via
`select` but never invokes `deselect`, and the binding stays on that AID. -/
theorem claim_C7_select_idempotent (mid : Nat) (apps : List AppSpec)
    (s : DispatchState) (aid : List Nat) (interface ifc : Interface)
    (i : Nat) (app : AppSpec) (cmd : Command)
    (hfind : findApp (some aid) apps = some (i, app))
    (hcur : s.currentAid = some aid)
    (hbuf : s.buffer = RawApduBuffer.request cmd)
    (hifc : s.interface = some ifc) :
    ∃ s2 out,
      handleAppSelect mid apps s aid interface =
        some (s2, out, [AppEvent.selectCall i interface cmd]) ∧
      s2.currentAid = some aid := by
  obtain ⟨ca, oifc, buf, rle, wrc⟩ := s
  dsimp only at hcur hbuf hifc
  subst hcur hbuf hifc
  have hres := handleAppResponse_preserves mid
    { currentAid := some aid, interface := some ifc,
      buffer := RawApduBuffer.request cmd, responseLenExpected := rle,
      wasRequestChained := wrc } (app.select interface cmd)
  unfold handleAppSelect
  rw [hfind]
  dsimp only
  simp only [ne_eq, not_true_eq_false, if_false, ite_self]
  simp only [respond, hres.2, Option.map_some]
  exact ⟨_, _, rfl, hres.1⟩
/-- An app accepting the AID 01 02 03 04 05 exactly, for witnesses. -/
def idemApp : AppSpec :=
  { aidMatches := fun d => d == [1, 2, 3, 4, 5]
    select := fun _ _ => Except.ok []
    call := fun _ _ => Except.ok [] }

theorem claim_C7_witness :
    ∃ s2 out,
      handleAppSelect 7 [idemApp]
          { mkReplyState 0 false (RawApduBuffer.request (Command.mk false 0 0 0 [] 0)) with
              currentAid := some [1, 2, 3, 4, 5], interface := some Interface.contact }
          [1, 2, 3, 4, 5] Interface.contact =
        some (s2, out,
          [AppEvent.selectCall 0 Interface.contact (Command.mk false 0 0 0 [] 0)]) ∧
      s2.currentAid = some [1, 2, 3, 4, 5] :=
  claim_C7_select_idempotent 7 [idemApp]
    { mkReplyState 0 false (RawApduBuffer.request (Command.mk false 0 0 0 [] 0)) with
        currentAid := some [1, 2, 3, 4, 5], interface := some Interface.contact }
    [1, 2, 3, 4, 5] Interface.contact Interface.contact 0 idemApp
    (Command.mk false 0 0 0 [] 0) rfl rfl rfl rfl

/-- AID of the app bound before the switching SELECT. -/
def aidA : List Nat := [0xA0, 0, 0, 0, 1]

/-- AID named by the switching SELECT. -/
def aidB : List Nat := [0xA0, 0, 0, 0, 2]

/-- App at registry index 0, matching exactly aidA. -/
def appA : AppSpec :=
  { aidMatches := fun d => d == aidA
    select := fun _ _ => Except.ok [1]
    call := fun _ _ => Except.ok [1] }

/-- App at registry index 1, matching exactly aidB. -/
def appB : AppSpec :=
  { aidMatches := fun d => d == aidB
    select := fun _ _ => Except.ok [2]
    call := fun _ _ => Except.ok [2] }

/-- The buffered SELECT command naming aidB. -/
def selectCmdB : Command :=
  { notLast := false, ins := 0xA4, p1 := 4, p2 := 0, data := aidB, expected := 256 }

/-- Dispatcher state bound to aidA, with the SELECT for aidB buffered. -/
def stateAB : DispatchState :=
  { currentAid := some aidA
    interface := some Interface.contact
    buffer := RawApduBuffer.request selectCmdB
    responseLenExpected := 256
    wasRequestChained := false }

/-- C1 fails on the code: on a SELECT switching the binding from aidA to aidB,
handle_app_select replaces current_aid with aidB first and then looks the
deselect target up by the new current_aid, so deselect() is invoked on the app
matching B (registry index 1, the newly selected app) and never on the app
matching A (index 0), contradicting the comments of handle_app_select
(deselect the previously selected app to give it the chance to clear sensitive
state). -/
theorem claim_C1_deselect_wrong_app :
    findApp (some aidA) [appA, appB] = some (0, appA) ∧
    findApp (some aidB) [appA, appB] = some (1, appB) ∧
    (handleAppSelect 1022 [appA, appB] stateAB aidB Interface.contact).map
        (fun r => r.2.2) =
      some [AppEvent.selectCall 1 Interface.contact selectCmdB,
            AppEvent.deselectCall 1] :=
  ⟨rfl, rfl, by decide⟩
theorem bufferRequest_request (b : RawApduBuffer) (c : Command) :
    ∃ d, bufferRequest b c = RawApduBuffer.request d := by
  rcases b with _ | b | r
  · exact ⟨c, rfl⟩
  · exact ⟨_, rfl⟩
  · exact ⟨c, rfl⟩

theorem bufferChained_interface (s : DispatchState) (command : Command)
    (interface : Interface) :
    (bufferChainedApduIfNeeded s command interface).2.1.interface = s.interface := by
  unfold bufferChainedApduIfNeeded
  split
  · split
    · rfl
    · dsimp only
      split <;> split_ifs <;> rfl
  · dsimp only
    split_ifs <;> rfl

theorem bufferChained_cases (s : DispatchState) (command : Command)
    (interface : Interface) :
    (bufferChainedApduIfNeeded s command interface).1 = RequestType.getResponse ∨
    (bufferChainedApduIfNeeded s command interface).1 = RequestType.none ∨
    ∃ c, (bufferChainedApduIfNeeded s command interface).2.1.buffer
      = RawApduBuffer.request c := by
  unfold bufferChainedApduIfNeeded
  split
  · split
    · refine Or.inr (Or.inr ?_)
      exact bufferRequest_request _ _
    · dsimp only
      rcases ht : apduType command interface with a | _ | a | a | _ <;> dsimp only
      · exact Or.inr (Or.inr (bufferRequest_request _ _))
      · exact Or.inl rfl
      · exact Or.inr (Or.inr (bufferRequest_request _ _))
      · exact Or.inr (Or.inr (bufferRequest_request _ _))
      · exact Or.inr (Or.inr (bufferRequest_request _ _))
  · exact Or.inr (Or.inl rfl)

theorem checkForRequest_interface (parse : List Nat → Option Command)
    (s : DispatchState) (message : List Nat) (interface : Interface) :
    (checkForRequest parse s message interface).2.1.interface ≠ Option.none := by
  obtain ⟨ca, oifc, buf, rle, wrc⟩ := s
  cases oifc with
  | none =>
      unfold checkForRequest
      cases hp : parse message <;> dsimp only [hp]
      · simp
      · rw [bufferChained_interface]
        simp
  | some i0 =>
      unfold checkForRequest
      dsimp only
      by_cases hne : i0 ≠ interface
      · rw [if_pos hne]
        simp
      · rw [if_neg hne]
        cases hp : parse message <;> dsimp only [hp]
        · simp
        · rw [bufferChained_interface]
          simp

theorem checkForRequest_cases (parse : List Nat → Option Command)
    (s : DispatchState) (message : List Nat) (interface : Interface) :
    (checkForRequest parse s message interface).1 = RequestType.getResponse ∨
    (checkForRequest parse s message interface).1 = RequestType.none ∨
    ∃ c, (checkForRequest parse s message interface).2.1.buffer
      = RawApduBuffer.request c := by
  obtain ⟨ca, oifc, buf, rle, wrc⟩ := s
  cases oifc with
  | none =>
      unfold checkForRequest
      cases hp : parse message <;> dsimp only [hp]
      · simp
      · exact bufferChained_cases _ _ _
  | some i0 =>
      unfold checkForRequest
      dsimp only
      by_cases hne : i0 ≠ interface
      · rw [if_pos hne]
        simp
      · rw [if_neg hne]
        cases hp : parse message <;> dsimp only [hp]
        · simp
        · exact bufferChained_cases _ _ _

theorem respond_ne_none (s : DispatchState) (m : List Nat)
    (h : s.interface ≠ Option.none) : respond s m ≠ Option.none := by
  unfold respond
  cases hs : s.interface with
  | none => exact absurd hs h
  | some i => simp

theorem handleAppSelect_ne_none (mid : Nat) (apps : List AppSpec)
    (s : DispatchState) (aid : List Nat) (interface : Interface)
    (hbuf : ∃ c, s.buffer = RawApduBuffer.request c)
    (hifc : s.interface ≠ Option.none) :
    handleAppSelect mid apps s aid interface ≠ Option.none := by
  obtain ⟨cmd, hbuf⟩ := hbuf
  unfold handleAppSelect
  cases hfind : findApp (some aid) apps with
  | none =>
      dsimp only
      intro hcontra
      exact respond_ne_none _ _ hifc (by simpa using hcontra)
  | some p =>
      obtain ⟨i0, app⟩ := p
      rw [hbuf]
      dsimp only
      have hpres := handleAppResponse_preserves mid { s with currentAid := some aid }
        (app.select interface cmd)
      have hifc2 : (handleAppResponse mid { s with currentAid := some aid }
          (app.select interface cmd)).1.interface ≠ Option.none := by
        rw [hpres.2]; exact hifc
      cases hcur : s.currentAid with
      | none =>
          intro hcontra
          exact respond_ne_none _ _ hifc2 (by simpa using hcontra)
      | some old =>
          try dsimp only
          split_ifs with hold
          · rw [hfind]
            intro hcontra
            exact respond_ne_none _ _ hifc2 (by simpa using hcontra)
          · intro hcontra
            exact respond_ne_none _ _ hifc2 (by simpa using hcontra)

theorem handleAppCommand_ne_none (mid : Nat) (apps : List AppSpec)
    (s : DispatchState) (interface : Interface)
    (hbuf : ∃ c, s.buffer = RawApduBuffer.request c)
    (hifc : s.interface ≠ Option.none) :
    handleAppCommand mid apps s interface ≠ Option.none := by
  obtain ⟨cmd, hbuf⟩ := hbuf
  unfold handleAppCommand
  cases hfind : findApp s.currentAid apps with
  | none =>
      dsimp only
      intro hcontra
      exact respond_ne_none _ _ hifc (by simpa using hcontra)
  | some p =>
      obtain ⟨i0, app⟩ := p
      rw [hbuf]
      dsimp only
      have hpres := handleAppResponse_preserves mid s (app.call interface cmd)
      have hifc2 : (handleAppResponse mid s (app.call interface cmd)).1.interface
          ≠ Option.none := by
        rw [hpres.2]; exact hifc
      intro hcontra
      exact respond_ne_none _ _ hifc2 (by simpa using hcontra)

/-- C9: the two panic arms on an unexpected buffer state (handle_app_select and
handle_app_command) and the unwraps they guard are unreachable through poll:
whenever poll dispatches a Select or NewCommand classification, check_for_request
has left the buffer in the Request state and an interface pinned, so a poll
step never hits a modelled panic (never returns Option.none). -/
theorem claim_C9_poll_never_panics (mid : Nat) (parse : List Nat → Option Command)
    (apps : List AppSpec) (s : DispatchState)
    (incoming : Option (List Nat × Interface)) :
    poll mid parse apps s incoming ≠ Option.none := by
  cases incoming with
  | none => simp [poll]
  | some mi =>
      obtain ⟨message, interface⟩ := mi
      have hifc := checkForRequest_interface parse s message interface
      have hcases := checkForRequest_cases parse s message interface
      unfold poll
      dsimp only
      rcases hrt : (checkForRequest parse s message interface).1 with
        ⟨aid, i⟩ | _ | i | st | _ <;> dsimp only
      · rcases hcases with h | h | hbuf
        · rw [hrt] at h; cases h
        · rw [hrt] at h; cases h
        · intro hcontra
          rw [Option.map_eq_none'] at hcontra
          exact handleAppSelect_ne_none mid apps _ aid i hbuf hifc hcontra
      · intro hcontra
        rw [Option.map_eq_none'] at hcontra
        have hpres := handleReply_preserves mid (checkForRequest parse s message interface).2.1
        have : (handleReply mid (checkForRequest parse s message interface).2.1).1.interface
            ≠ Option.none := by rw [hpres.2]; exact hifc
        exact respond_ne_none _ _ this hcontra
      · rcases hcases with h | h | hbuf
        · rw [hrt] at h; cases h
        · rw [hrt] at h; cases h
        · intro hcontra
          rw [Option.map_eq_none'] at hcontra
          exact handleAppCommand_ne_none mid apps _ i hbuf hifc hcontra
      · intro hcontra
        rw [Option.map_eq_none'] at hcontra
        exact respond_ne_none _ _ hifc hcontra
      · simp
/-- The status word of an emitted message: its last two bytes, big-endian. -/
def swOf (m : List Nat) : Nat :=
  match m.reverse with
  | b :: a :: _ => 256 * a + b
  | _ => 0

/-- The data part of an emitted message: everything before the 2-byte SW. -/
def dataPart (m : List Nat) : List Nat :=
  m.take (m.length - 2)

/-- The status word handle_reply attaches to a chunk in the chunked regime
(dispatch.rs lines 315-323), as a function of the byte count remaining after
the chunk: 0x6100 for more than 255 remaining, 0x6100 + n for 0 < n ≤ 255,
0x9000 for none. -/
def chunkSW (remaining : Nat) : Nat :=
  if 255 < remaining then 0x6100
  else if remaining ≠ 0 then 0x6100 + remaining
  else 0x9000

/-- A maximal run of handle_reply invocations, one per step: each step carries
the responseLenExpected and wasRequestChained values in force when the reply
handler fires (a GET RESPONSE rewrites responseLenExpected with its own Le
before handle_reply runs, and wasRequestChained cannot change while the buffer
stays in the Response state). The run stops as soon as the buffer leaves the
Response state; it returns the emitted messages and the final buffer. -/
def drainFrom (mid : Nat) : List (Nat × Bool) → RawApduBuffer →
    List (List Nat) × RawApduBuffer
  | [], buf => ([], buf)
  | step :: rest, buf =>
      match buf with
      | RawApduBuffer.response res =>
          let r := handleReply mid (mkReplyState step.1 step.2 (RawApduBuffer.response res))
          let t := drainFrom mid rest r.1.buffer
          (r.2 :: t.1, t.2)
      | b => ([], b)

/-- Executable description of a complete drain of `bytes`: every non-final
message is a prefix chunk of the outstanding bytes followed by the chunkSW of
the remaining count, and the final message is the outstanding bytes followed
by 0x9000. -/
def goodDrain : List Nat → List (List Nat) → Bool
  | _, [] => false
  | bytes, [m] => m == bytes ++ [0x90, 0x00]
  | bytes, m :: m2 :: rest =>
      (m == bytes.take (m.length - 2)
          ++ swBytes (chunkSW (bytes.length - (m.length - 2))))
        && decide (bytes.length - (m.length - 2) ≠ 0)
        && goodDrain (bytes.drop (m.length - 2)) (m2 :: rest)

theorem goodDrain_singleton (bytes m : List Nat) :
    goodDrain bytes [m] = (m == bytes ++ [0x90, 0x00]) := rfl

theorem goodDrain_cons₂ (bytes m m2 : List Nat) (rest : List (List Nat)) :
    goodDrain bytes (m :: m2 :: rest)
      = ((m == bytes.take (m.length - 2)
            ++ swBytes (chunkSW (bytes.length - (m.length - 2))))
          && decide (bytes.length - (m.length - 2) ≠ 0)
          && goodDrain (bytes.drop (m.length - 2)) (m2 :: rest)) := rfl

theorem handleReply_drain_step (mid le : Nat) (chained : Bool) (bytes : List Nat) :
    ((handleReply mid (mkReplyState le chained (RawApduBuffer.response bytes))).1.buffer
        = RawApduBuffer.none ∧
     (handleReply mid (mkReplyState le chained (RawApduBuffer.response bytes))).2
        = bytes ++ [0x90, 0x00]) ∨
    (∃ k, k ≤ bytes.length ∧ bytes.length - k ≠ 0 ∧
      (handleReply mid (mkReplyState le chained (RawApduBuffer.response bytes))).1.buffer
          = RawApduBuffer.response (bytes.drop k) ∧
      (handleReply mid (mkReplyState le chained (RawApduBuffer.response bytes))).2
          = bytes.take k ++ swBytes (chunkSW (bytes.length - k)) ∧
      (handleReply mid (mkReplyState le chained (RawApduBuffer.response bytes))).2.length
          = k + 2) := by
  unfold handleReply mkReplyState
  dsimp only
  have hkle : min (min le mid) bytes.length ≤ bytes.length := Nat.min_le_right _ _
  have hdrop : (bytes.drop (min (min le mid) bytes.length)).length
      = bytes.length - min (min le mid) bytes.length := List.length_drop _ _
  by_cases hch : (chained = true) ∨ min le mid < bytes.length
  · rw [if_pos hch]
    by_cases h255 : 255 < (bytes.drop (min (min le mid) bytes.length)).length
    · rw [if_pos h255]
      rw [if_neg (show ¬ ((0x6100 : Nat) = 0x9000) by omega)]
      refine Or.inr ⟨min (min le mid) bytes.length, hkle, by omega, rfl, ?_, ?_⟩
      · have hcs : chunkSW (bytes.length - min (min le mid) bytes.length) = 0x6100 := by
          unfold chunkSW
          rw [if_pos (by omega)]
        rw [hcs]
      · simp only [List.length_append, List.length_take, swBytes, List.length_cons,
          List.length_nil]
        omega
    · by_cases hzero : (bytes.drop (min (min le mid) bytes.length)).length ≠ 0
      · rw [if_neg h255, if_pos hzero]
        rw [if_neg (show
            ¬ ((0x6100 + (bytes.drop (min (min le mid) bytes.length)).length : Nat)
              = 0x9000) by omega)]
        refine Or.inr ⟨min (min le mid) bytes.length, hkle, by omega, rfl, ?_, ?_⟩
        · have hcs : chunkSW (bytes.length - min (min le mid) bytes.length)
              = 0x6100 + (bytes.drop (min (min le mid) bytes.length)).length := by
            unfold chunkSW
            rw [if_neg (by omega), if_pos (by omega)]
            omega
          rw [hcs, hdrop]
        · simp only [List.length_append, List.length_take, swBytes, List.length_cons,
            List.length_nil]
          omega
      · rw [if_neg h255, if_neg hzero]
        rw [if_pos rfl]
        have hk : min (min le mid) bytes.length = bytes.length := by omega
        refine Or.inl ⟨rfl, ?_⟩
        rw [hk, List.take_length]
        norm_num [swBytes]
  · rw [if_neg hch]
    exact Or.inl ⟨rfl, rfl⟩

theorem drainFrom_none (mid : Nat) (steps : List (Nat × Bool)) :
    drainFrom mid steps RawApduBuffer.none = ([], RawApduBuffer.none) := by
  cases steps <;> rfl

theorem drainFrom_goodDrain (mid : Nat) (steps : List (Nat × Bool)) :
    ∀ bytes : List Nat,
      (drainFrom mid steps (RawApduBuffer.response bytes)).2 = RawApduBuffer.none →
      goodDrain bytes (drainFrom mid steps (RawApduBuffer.response bytes)).1 = true := by
  induction steps with
  | nil =>
      intro bytes h
      exact absurd h (by simp [drainFrom])
  | cons step rest ih =>
      intro bytes h
      obtain ⟨le, ch⟩ := step
      have hd : drainFrom mid ((le, ch) :: rest) (RawApduBuffer.response bytes)
          = ((handleReply mid (mkReplyState le ch (RawApduBuffer.response bytes))).2
              :: (drainFrom mid rest
                  (handleReply mid
                    (mkReplyState le ch (RawApduBuffer.response bytes))).1.buffer).1,
             (drainFrom mid rest
                  (handleReply mid
                    (mkReplyState le ch (RawApduBuffer.response bytes))).1.buffer).2) := rfl
      rcases handleReply_drain_step mid le ch bytes with
        ⟨hbuf, hmsg⟩ | ⟨k, hkle, hkne, hbuf, hmsg, hlen⟩
      · rw [hd] at h ⊢
        rw [hbuf, drainFrom_none, hmsg]
        simp [goodDrain_singleton]
      · rw [hd] at h ⊢
        rw [hbuf] at h ⊢
        have hih := ih (bytes.drop k) h
        rcases ht1 : (drainFrom mid rest (RawApduBuffer.response (bytes.drop k))).1 with
          _ | ⟨m2, rest2⟩
        · rw [ht1] at hih
          simp [goodDrain] at hih
        · rw [ht1] at hih
          rw [hmsg]
          have hklen : (bytes.take k ++ swBytes (chunkSW (bytes.length - k))).length - 2
              = k := by
            simp only [List.length_append, List.length_take, swBytes, List.length_cons,
              List.length_nil]
            omega
          rw [goodDrain_cons₂, hklen]
          simp only [Bool.and_eq_true, beq_iff_eq, decide_eq_true_eq]
          exact ⟨⟨trivial, hkne⟩, hih⟩

theorem swOf_append (c : List Nat) (a b : Nat) :
    swOf (c ++ [a, b]) = 256 * a + b := by
  unfold swOf
  rw [List.reverse_append]
  rfl

theorem swOf_swBytes (c : List Nat) (w : Nat) (h : w < 65536) :
    swOf (c ++ swBytes w) = w := by
  unfold swBytes
  rw [swOf_append]
  omega

theorem chunkSW_lt (r : Nat) : chunkSW r < 65536 := by
  unfold chunkSW
  split_ifs <;> omega

theorem chunkSW_ne_success (r : Nat) (h : r ≠ 0) : chunkSW r ≠ 0x9000 := by
  unfold chunkSW
  split_ifs <;> omega

theorem dataPart_append_two (c : List Nat) (a b : Nat) :
    dataPart (c ++ [a, b]) = c := by
  unfold dataPart
  have h2 : (c ++ [a, b]).length - 2 = c.length := by simp
  rw [h2, List.take_left]

theorem dataPart_append_sw (c : List Nat) (w : Nat) :
    dataPart (c ++ swBytes w) = c := by
  unfold swBytes
  exact dataPart_append_two c _ _
theorem goodDrain_props (msgs : List (List Nat)) :
    ∀ bytes, goodDrain bytes msgs = true →
      ((msgs.map dataPart).flatten = bytes ∧
       (∃ lm, msgs.getLast? = some lm ∧ swOf lm = 0x9000) ∧
       (msgs.filter (fun m => swOf m == 0x9000)).length = 1 ∧
       ∀ m2 ∈ msgs.dropLast, ∃ n, n ≤ 255 ∧ swOf m2 = 0x6100 + n) := by
  induction msgs with
  | nil =>
      intro bytes h
      exact absurd h (by simp [goodDrain])
  | cons m tail ih =>
      intro bytes h
      cases tail with
      | nil =>
          rw [goodDrain_singleton] at h
          have hm : m = bytes ++ [0x90, 0x00] := eq_of_beq h
          subst hm
          have hsw : swOf (bytes ++ [0x90, 0x00]) = 0x9000 := by
            rw [swOf_append]
          refine ⟨?_, ⟨bytes ++ [0x90, 0x00], rfl, hsw⟩, ?_, ?_⟩
          · simp [dataPart_append_two]
          · simp [List.filter_cons, hsw]
          · simp
      | cons m2 rest =>
          rw [goodDrain_cons₂] at h
          simp only [Bool.and_eq_true, beq_iff_eq, decide_eq_true_eq] at h
          obtain ⟨⟨hbeq, hrne⟩, htail⟩ := h
          set u := m.length - 2 with hu
          have hp := ih (bytes.drop u) htail
          have hlen := congrArg List.length hbeq
          simp only [List.length_append, List.length_take, swBytes, List.length_cons,
            List.length_nil] at hlen
          have hule : u ≤ bytes.length := by omega
          have hdp : dataPart m = bytes.take u := by
            rw [hbeq]
            exact dataPart_append_sw _ _
          have hswm : swOf m = chunkSW (bytes.length - u) := by
            rw [hbeq]
            exact swOf_swBytes _ _ (chunkSW_lt _)
          refine ⟨?_, ?_, ?_, ?_⟩
          · rw [List.map_cons, List.flatten_cons, hdp, hp.1]
            exact List.take_append_drop u bytes
          · rw [List.getLast?_cons_cons]
            exact hp.2.1
          · rw [List.filter_cons]
            have hcond : (swOf m == (0x9000 : Nat)) = false := by
              simp only [beq_eq_false_iff_ne, ne_eq, hswm]
              exact chunkSW_ne_success _ hrne
            simp only [hcond, Bool.false_eq_true, if_false]
            exact hp.2.2.1
          · rw [List.dropLast_cons₂]
            intro m3 hm3
            rcases List.mem_cons.mp hm3 with rfl | hmem
            · rw [hswm]
              unfold chunkSW
              split_ifs with h255
              · exact ⟨0, by omega, by omega⟩
              · exact ⟨bytes.length - u, by omega, rfl⟩
            · exact hp.2.2.2 m3 hmem

/-- C2: for every complete drain of a Response buffer (a run of handle_reply
invocations that starts with buffer = Response(bytes) and ends with the buffer
Empty), the drained message list satisfies goodDrain (each non-final message
is a prefix chunk with SW 0x6100 + n, n = 0 encoding more than 255 bytes
remaining and n the remaining count otherwise); consequently the concatenation
of the data parts equals the original bytes, the final message carries SW
0x9000, exactly one message carries SW 0x9000, and every earlier message
carries an SW of the form 0x6100 + n with n ≤ 255. -/
theorem claim_C2_response_drain (mid : Nat) (steps : List (Nat × Bool))
    (bytes : List Nat)
    (h : (drainFrom mid steps (RawApduBuffer.response bytes)).2 = RawApduBuffer.none) :
    goodDrain bytes (drainFrom mid steps (RawApduBuffer.response bytes)).1 = true ∧
    (((drainFrom mid steps (RawApduBuffer.response bytes)).1.map dataPart).flatten
        = bytes) ∧
    (∃ lm, (drainFrom mid steps (RawApduBuffer.response bytes)).1.getLast? = some lm ∧
        swOf lm = 0x9000) ∧
    ((drainFrom mid steps (RawApduBuffer.response bytes)).1.filter
        (fun m => swOf m == 0x9000)).length = 1 ∧
    ∀ m ∈ (drainFrom mid steps (RawApduBuffer.response bytes)).1.dropLast,
      ∃ n, n ≤ 255 ∧ swOf m = 0x6100 + n := by
  have hg := drainFrom_goodDrain mid steps bytes h
  have hp := goodDrain_props _ _ hg
  exact ⟨hg, hp.1, hp.2.1, hp.2.2.1, hp.2.2.2⟩

theorem claim_C2_witness :
    (drainFrom 1022 [(5, true), (7, true)]
        (RawApduBuffer.response
          [0xA0, 0xA1, 0xA2, 0xA3, 0xA4, 0xA5, 0xA6, 0xA7, 0xA8, 0xA9, 0xAA, 0xAB])).2
      = RawApduBuffer.none ∧
    goodDrain [0xA0, 0xA1, 0xA2, 0xA3, 0xA4, 0xA5, 0xA6, 0xA7, 0xA8, 0xA9, 0xAA, 0xAB]
      (drainFrom 1022 [(5, true), (7, true)]
        (RawApduBuffer.response
          [0xA0, 0xA1, 0xA2, 0xA3, 0xA4, 0xA5, 0xA6, 0xA7, 0xA8, 0xA9, 0xAA, 0xAB])).1
      = true :=
  ⟨by decide,
   (claim_C2_response_drain 1022 [(5, true), (7, true)]
      [0xA0, 0xA1, 0xA2, 0xA3, 0xA4, 0xA5, 0xA6, 0xA7, 0xA8, 0xA9, 0xAA, 0xAB]
      (by decide)).1⟩
/-- Modelled from the spec: the APDU codec (spec section 2 component 2 and
section 4.1), whose parsing code — reached through the missing lib.rs, in the
iso7816 crate — is not under src/. Short APDUs per ISO 7816-4: header
CLA INS P1 P2, then an optional body, either a lone Le byte, or Lc followed by
Lc data bytes and an optional trailing Le byte. CLA bit 0x10 is the command
chaining bit (spec glossary: chaining is signalled by a bit in CLA; scenario
S3 marks CLA 0x10 as chain and CLA 0x00 as terminal). A present short Le byte
of 0 denotes 256. A command without an Le field is decoded with the maximal
expected length 65536: spec scenarios S1 (a SELECT without Le answered with
the whole 4-byte payload plus 0x9000 in one message) and S3 (a terminal
chained block without Le answered with the whole 2-byte payload plus 0x9000)
both require expected_len to be at least the response length when Le is
absent. -/
def parseShortApdu (m : List Nat) : Option Command :=
  match m with
  | cla :: ins :: q1 :: q2 :: body =>
      let notLast := decide (cla &&& 0x10 ≠ 0)
      let mk := fun (d : List Nat) (le? : Option Nat) =>
        Command.mk notLast ins q1 q2 d
          (match le? with
           | some b => if b = 0 then 256 else b
           | Option.none => 65536)
      match body with
      | [] => some (mk [] Option.none)
      | [le] => some (mk [] (some le))
      | lc :: rest =>
          if lc ≠ 0 ∧ rest.length = lc then some (mk rest Option.none)
          else if lc ≠ 0 ∧ rest.length = lc + 1 then
            some (mk (rest.take lc) (some (rest.getLastD 0)))
          else Option.none
  | _ => Option.none

/-- The AID bound before scenario S3. -/
def aidS3 : List Nat := [0xA0, 0, 0, 0, 1]

/-- The S3 app, bound at registry index 0: on call it returns the two bytes
11 22. -/
def appS3 : AppSpec :=
  { aidMatches := fun d => d == aidS3
    select := fun _ _ => Except.ok []
    call := fun _ _ => Except.ok [0x11, 0x22] }

/-- S3 intermediate chained block, CLA 0x10, Lc 4, data AA BB CC DD. -/
def msgS3a : List Nat := [0x10, 0x00, 0x00, 0x00, 0x04, 0xAA, 0xBB, 0xCC, 0xDD]

/-- S3 terminal block, CLA 0x00, Lc 2, data EE FF, no Le. -/
def msgS3b : List Nat := [0x00, 0x00, 0x00, 0x00, 0x02, 0xEE, 0xFF]

/-- Dispatcher state before S3: an app is bound, the transaction is pinned to
contact, the buffer is empty. -/
def stateS3 : DispatchState :=
  { currentAid := some aidS3
    interface := some Interface.contact
    buffer := RawApduBuffer.none
    responseLenExpected := 0
    wasRequestChained := false }

/-- The intermediate block as parsed. -/
def cmdS3a : Command :=
  { notLast := true, ins := 0, p1 := 0, p2 := 0
    data := [0xAA, 0xBB, 0xCC, 0xDD], expected := 65536 }

/-- Dispatcher state after the intermediate block was buffered and acked. -/
def stateS3b : DispatchState :=
  { currentAid := some aidS3
    interface := some Interface.contact
    buffer := RawApduBuffer.request cmdS3a
    responseLenExpected := 65536
    wasRequestChained := false }

/-- The combined Request the app is invoked with after the terminal block. -/
def cmdS3Combined : Command :=
  { notLast := true, ins := 0, p1 := 0, p2 := 0
    data := [0xAA, 0xBB, 0xCC, 0xDD, 0xEE, 0xFF], expected := 65536 }

/-- Dispatcher state when the app is invoked: combined Request buffered,
request marked chained. -/
def stateS3c : DispatchState :=
  { currentAid := some aidS3
    interface := some Interface.contact
    buffer := RawApduBuffer.request cmdS3Combined
    responseLenExpected := 65536
    wasRequestChained := true }

/-- C4: scenario S3. The intermediate chained block is acked with 90 00 and
buffered; the terminal block completes the chain, the app is invoked by call
with the concatenated data AA BB CC DD EE FF, and because the request was
chained the 2-byte reply 11 22 goes through the chunked path and is emitted on
contact as exactly 11 22 90 00. -/
theorem claim_C4_chained_scenario (mid : Nat) (hmid : 2 ≤ mid) :
    poll mid parseShortApdu [appS3] stateS3 (some (msgS3a, Interface.contact)) =
      some (stateS3b, [(Interface.contact, [0x90, 0x00])], []) ∧
    cmdS3Combined.data = [0xAA, 0xBB, 0xCC, 0xDD, 0xEE, 0xFF] ∧
    poll mid parseShortApdu [appS3] stateS3b (some (msgS3b, Interface.contact)) =
      some ({ stateS3c with buffer := RawApduBuffer.none },
            [(Interface.contact, [0x11, 0x22, 0x90, 0x00])],
            [AppEvent.callCall 0 Interface.contact cmdS3Combined]) := by
  refine ⟨rfl, rfl, ?_⟩
  have hc : checkForRequest parseShortApdu stateS3b msgS3b Interface.contact
      = (RequestType.newCommand Interface.contact, stateS3c, []) := rfl
  have hbnd : min (min (65536 : Nat) mid) (List.length [(0x11 : Nat), 0x22]) = 2 := by
    simp only [List.length_cons, List.length_nil]
    omega
  have hreply : handleReply mid
      { stateS3c with buffer := RawApduBuffer.response [0x11, 0x22] }
      = ({ stateS3c with buffer := RawApduBuffer.none },
         [0x11, 0x22, 0x90, 0x00]) := by
    unfold handleReply stateS3c
    dsimp only
    rw [if_pos (Or.inl rfl)]
    rw [hbnd]
    rfl
  unfold poll
  dsimp only
  rw [hc]
  dsimp only
  unfold handleAppCommand
  rw [show findApp stateS3c.currentAid [appS3] = some (0, appS3) from rfl]
  dsimp only [stateS3c, cmdS3Combined]
  unfold handleAppResponse
  rw [show appS3.call Interface.contact
      (Command.mk true 0 0 0 [0xAA, 0xBB, 0xCC, 0xDD, 0xEE, 0xFF] 65536)
      = Except.ok [0x11, 0x22] from rfl]
  dsimp only
  rw [show ({ currentAid := some aidS3
              interface := some Interface.contact
              buffer := RawApduBuffer.response [0x11, 0x22]
              responseLenExpected := 65536
              wasRequestChained := true } : DispatchState)
      = { stateS3c with buffer := RawApduBuffer.response [0x11, 0x22] } from rfl]
  rw [hreply]
  rfl

theorem claim_C4_witness :
    (2 ≤ 1022) ∧
    (poll 1022 parseShortApdu [appS3] stateS3 (some (msgS3a, Interface.contact)) =
      some (stateS3b, [(Interface.contact, [0x90, 0x00])], []) ∧
    cmdS3Combined.data = [0xAA, 0xBB, 0xCC, 0xDD, 0xEE, 0xFF] ∧
    poll 1022 parseShortApdu [appS3] stateS3b (some (msgS3b, Interface.contact)) =
      some ({ stateS3c with buffer := RawApduBuffer.none },
            [(Interface.contact, [0x11, 0x22, 0x90, 0x00])],
            [AppEvent.callCall 0 Interface.contact cmdS3Combined])) :=
  ⟨by decide, claim_C4_chained_scenario 1022 (by decide)⟩
end ApduDispatch
